import Mathlib

/-!
Verification development for the spendro expense-ingestion system.

The definitions below are a shallow embedding of the TypeScript source:

* JavaScript value/string semantics needed by the coercion code
  (template-literal interpolation of numbers, truthiness, property access);
* the extraction-stream coercion ladder of
  src/lib/utils/ai-processor.ts (createPermissiveExpenseSchema);
* the ingestion pipeline of the server processing module
  (insertExpenseRecord, processPdfExpenses) with its external effects
  (category fetch, AI stream, currency conversion, database create)
  supplied as environment parameters;
* category resolution (src/app/actions/categories.ts);
* the client display transformers (recalculateDuplicates,
  addExpenseToArray, updateExpenseInArray);
* the statement-status subscription handler of
  src/hooks/use-statement-status.ts.

Machine numbers are modelled as rationals; a decimal rendering function
models the JavaScript number-to-string conversion used inside template
literals (it agrees with JavaScript on finite-decimal values).
-/

namespace Spendro

/-! ## JavaScript semantic helpers -/

/-- ASCII-wise model of String.prototype.toLowerCase. -/
def strLower (s : String) : String := ⟨s.data.map Char.toLower⟩

/-- ASCII-wise model of String.prototype.toUpperCase. -/
def strUpper (s : String) : String := ⟨s.data.map Char.toUpper⟩

def trimList (l : List Char) : List Char :=
  ((l.dropWhile Char.isWhitespace).reverse.dropWhile Char.isWhitespace).reverse

/-- Model of String.prototype.trim. -/
def strTrim (s : String) : String := ⟨trimList s.data⟩

/-- Bool test that one character sequence occurs inside another (used to model
JavaScript String.prototype.includes). -/
def seqContains : List Char → List Char → Bool
  | [], needle => needle.isEmpty
  | h :: t, needle => needle.isPrefixOf (h :: t) || seqContains t needle

/-- Model of msg.includes applied to a lower-cased error message, the check the
source uses to recognise a uniqueness-constraint violation. -/
def uniqueViolationMessage (msg : String) : Bool :=
  seqContains (strLower msg).data "unique".data

/-- Decimal digits of a proper fraction r / d, most significant first, with
enough fuel for any denominator dividing a large power of ten. -/
def fracDigitsAux : ℕ → ℕ → ℕ → List Char
  | 0, _, _ => []
  | _ + 1, 0, _ => []
  | fuel + 1, r, d => Nat.digitChar (r * 10 / d) :: fracDigitsAux fuel (r * 10 % d) d

/-- Decimal rendering of a rational, modelling the JavaScript number-to-string
conversion performed by template literals and String(n); it agrees with
JavaScript on values with a finite decimal expansion. -/
def jsNumToString (q : ℚ) : String :=
  let sign := if q < 0 then "-" else ""
  let n := q.num.natAbs
  let ip := n / q.den
  let r := n % q.den
  let frac := fracDigitsAux 40 r q.den
  sign ++ toString ip ++ (if frac.isEmpty then "" else "." ++ ⟨frac⟩)

/-- JSON-style values as delivered by the model-output stream (the raw payload
each schema tier of the coercion ladder receives). -/
inductive JSValue where
  | str (s : String)
  | num (q : ℚ)
  | bool (b : Bool)
  | null
  | obj (fields : List (String × JSValue))
  | arr (elems : List JSValue)

mutual

/-- Model of JavaScript String(value) on JSON values. -/
def jsToString : JSValue → String
  | .str s => s
  | .num q => jsNumToString q
  | .bool true => "true"
  | .bool false => "false"
  | .null => "null"
  | .obj _ => "[object Object]"
  | .arr xs => String.intercalate "," (jsToStringElems xs)

/-- Array elements stringify like Array.prototype.join: null renders empty. -/
def jsToStringElems : List JSValue → List String
  | [] => []
  | .null :: t => "" :: jsToStringElems t
  | v :: t => jsToString v :: jsToStringElems t

end

/-- JavaScript truthiness of a JSON value. -/
def jsTruthy : JSValue → Bool
  | .str s => !s.isEmpty
  | .num q => q != 0
  | .bool b => b
  | .null => false
  | .obj _ => true
  | .arr _ => true

def lookupField : List (String × JSValue) → String → Option JSValue
  | [], _ => none
  | (k, v) :: t, key => if k = key then some v else lookupField t key

/-- Property access value.key: an own field of an object, undefined (none)
otherwise. The source never performs property access on null (the one throwing
case) without a guard or an enclosing catch, so the model makes it undefined. -/
def getField : JSValue → String → Option JSValue
  | .obj fields, key => lookupField fields key
  | _, _ => none

def allDigits (l : List Char) : Bool := l.all (fun c => c.isDigit)

def digitsToNat (l : List Char) : ℕ :=
  l.foldl (fun acc c => acc * 10 + (c.toNat - '0'.toNat)) 0

/-- Parse an unsigned decimal literal (digits, optionally a dot and digits)
into a rational; none when the shape is not a plain decimal. -/
def parseDecAbs (l : List Char) : Option ℚ :=
  let intPart := l.takeWhile (fun c => c.isDigit)
  let rest := l.dropWhile (fun c => c.isDigit)
  match rest with
  | [] => if intPart.isEmpty then none else some (digitsToNat intPart)
  | '.' :: fracPart =>
      if allDigits fracPart ∧ ¬(intPart.isEmpty ∧ fracPart.isEmpty) then
        some ((digitsToNat intPart : ℚ) +
          (digitsToNat fracPart : ℚ) / ((10 : ℚ) ^ fracPart.length))
      else none
  | _ => none

/-- Model of Number(string) followed by NaN-to-zero collapse, covering plain
decimal numerals as produced by JSON payloads; every non-numeric string maps
to 0 exactly as Number(s) || 0 does. -/
def jsStrToNumOrZero (s : String) : ℚ :=
  let t := trimList s.data
  match t with
  | [] => 0
  | '-' :: rest => match parseDecAbs rest with | some q => -q | none => 0
  | '+' :: rest => match parseDecAbs rest with | some q => q | none => 0
  | _ => match parseDecAbs t with | some q => q | none => 0

/-- Model of Number(value) || 0 on an optionally-present property value. -/
def jsToNumberOrZero (v : Option JSValue) : ℚ :=
  match v with
  | some (.num q) => q
  | some (.str s) => jsStrToNumOrZero s
  | some (.bool true) => 1
  | some (.bool false) => 0
  | some .null => 0
  | some (.obj _) => 0
  | some (.arr xs) => jsStrToNumOrZero (jsToString (.arr xs))
  | none => 0

/-- Model of String(value) where a missing property reads as undefined. -/
def jsToStringOpt (v : Option JSValue) : String :=
  match v with
  | some x => jsToString x
  | none => "undefined"

/-- Model of String(value || fallback): falsy or missing yields the fallback. -/
def fieldStrOrDefault (v : Option JSValue) (fallback : String) : String :=
  match v with
  | some x => if jsTruthy x then jsToString x else fallback
  | none => fallback

/-! ## Extraction stream: the three-tier coercion ladder
(src/lib/utils/ai-processor.ts, createPermissiveExpenseSchema) -/

/-- Candidate expense tuple yielded by the extraction stream
(AIExpenseInput in src/lib/types/expense.ts). -/
structure AIExpenseInput where
  date : String
  description : String
  merchant : String
  category : String
  original_amount : ℚ
  original_currency : String
deriving DecidableEq, Repr

/-- Tier 1: the strict schema createAiExpenseSchema (src/lib/types/expense.ts):
an object whose six fields have the expected primitive types, whose category
passes the refine step (member of the user list or the literal Other), with the
transform mapping a category outside the list to Other. Any other payload is
rejected. -/
def originalSchemaParse (userCategories : List String) (v : JSValue) :
    Option AIExpenseInput :=
  match getField v "date", getField v "description", getField v "merchant",
      getField v "category", getField v "original_amount",
      getField v "original_currency" with
  | some (.str d), some (.str desc), some (.str m), some (.str c),
      some (.num a), some (.str cur) =>
    if userCategories.contains c || c == "Other" then
      some ⟨d, desc, m, if userCategories.contains c then c else "Other", a, cur⟩
    else none
  | _, _, _, _, _, _ => none

/-- Field-by-field defensive coercion shared by tier 2 (after a successful
JSON.parse that fails the strict schema) and tier 3 (a non-null object). -/
def coerceObjectFields (userCategories : List String) (v : JSValue) :
    AIExpenseInput :=
  { date := fieldStrOrDefault (getField v "date") ""
    description := fieldStrOrDefault (getField v "description") ""
    merchant := fieldStrOrDefault (getField v "merchant") ""
    category :=
      let c := jsToStringOpt (getField v "category")
      if userCategories.contains c then c else "Other"
    original_amount := jsToNumberOrZero (getField v "original_amount")
    original_currency := fieldStrOrDefault (getField v "original_currency") "SGD" }

/-- Tier 2 fallback when the string payload cannot be parsed as JSON, or when
JSON.parse yields null and the subsequent property access throws inside the
surrounding catch. -/
def invalidJsonPlaceholder : AIExpenseInput :=
  ⟨"", "Invalid JSON", "", "Other", 0, "SGD"⟩

/-- Tier 3 fallback for payloads that are neither objects nor strings. -/
def unknownTypePlaceholder : AIExpenseInput :=
  ⟨"", "Unknown data type", "", "Other", 0, "SGD"⟩

/-- The full union schema of createPermissiveExpenseSchema applied to one
model-produced item. jsonParse abstracts the platform JSON.parse (none models
a parse exception). The union tries the strict schema, then the
string-parsing schema, then the permissive any-schema; every branch returns a
value, so the coercion is total. -/
def coerceExpenseItem (jsonParse : String → Option JSValue)
    (userCategories : List String) (item : JSValue) : AIExpenseInput :=
  match originalSchemaParse userCategories item with
  | some r => r
  | none =>
    match item with
    | .str s =>
      match jsonParse s with
      | none => invalidJsonPlaceholder
      | some .null => invalidJsonPlaceholder
      | some parsed =>
        match originalSchemaParse userCategories parsed with
        | some r => r
        | none => coerceObjectFields userCategories parsed
    | .obj fields => coerceObjectFields userCategories (.obj fields)
    | .arr elems => coerceObjectFields userCategories (.arr elems)
    | _ => unknownTypePlaceholder

/-! ## Ingestion pipeline (server processing module: insertExpenseRecord,
processPdfExpenses) -/

/-- Statement lifecycle states. -/
inductive StatementStatus where
  | processing
  | completed
  | failed
deriving DecidableEq, Repr

/-- Database insert payload for one expense (ExpenseInsertData). -/
structure ExpenseInsertData where
  statement_id : String
  user_id : String
  date : String
  description : String
  merchant : String
  amount_sgd : ℚ
  original_amount : ℚ
  original_currency : String
  currency : String
  category : String
  category_id : String
  line_hash : String
deriving DecidableEq, Repr

/-- The checks of expenseInsertDataSchema that can fail on pipeline-produced
data: the identifier fields must be non-empty strings. -/
def expenseInsertDataValid (d : ExpenseInsertData) : Bool :=
  decide (1 ≤ d.statement_id.length) && decide (1 ≤ d.user_id.length) &&
    decide (1 ≤ d.category_id.length)

/-- validateExpenseInsert (src/lib/utils/expense-transformers.ts): re-parse the
payload against the schema; a failure is rethrown as an error. -/
def validateExpenseInsert (d : ExpenseInsertData) : Except String ExpenseInsertData :=
  if expenseInsertDataValid d then .ok d
  else .error "Invalid expense insert data"

/-- transformAIInputToInsert (src/lib/utils/expense-transformers.ts). -/
def transformAIInputToInsert (aiInput : AIExpenseInput)
    (statementId userId : String) (convertedAmountSgd : ℚ)
    (lineHash categoryId : String) : Except String ExpenseInsertData :=
  let insertData : ExpenseInsertData :=
    { statement_id := statementId
      user_id := userId
      date := aiInput.date
      description := aiInput.description
      merchant := aiInput.merchant
      amount_sgd := convertedAmountSgd
      original_amount := aiInput.original_amount
      original_currency := aiInput.original_currency
      currency := aiInput.original_currency
      category := aiInput.category
      category_id := categoryId
      line_hash := lineHash }
  if expenseInsertDataValid insertData then .ok insertData
  else .error "Invalid expense insert data"

/-- A stored merchant mapping row (MerchantMapping). -/
structure MerchantMapping where
  id : String
  user_id : String
  merchant_name : String
  category : String
deriving DecidableEq, Repr

/-- getMerchantMapping (merchant mapping utilities): the lookup uppercases the
merchant name and queries the table by the normalised name; the table function
abstracts the per-user merchant_name-keyed select. -/
def getMerchantMapping (table : String → Option MerchantMapping)
    (merchantName : String) : Option MerchantMapping :=
  table (strUpper merchantName)

/-- convertExpenseToRecord (server processing module). External collaborators
are passed in: convertedAmount is the result of the currency conversion for
this candidate, table backs the merchant-mapping lookup, resolveCategory is
the get-or-create category resolution returning the category id, and hashOf is
the line-hash function over date, description and converted amount. -/
def convertExpenseToRecord (convertedAmount : ℚ)
    (table : String → Option MerchantMapping)
    (resolveCategory : String → String)
    (hashOf : String → String → ℚ → String)
    (expense : AIExpenseInput) (statementId userId : String) :
    Except String ExpenseInsertData :=
  let amountSgd := convertedAmount
  let lineHash := hashOf expense.date expense.description amountSgd
  let baseCategory :=
    if expense.original_currency ≠ "SGD" then "Travel" else expense.category
  let finalCategory :=
    if expense.merchant ≠ "" then
      match getMerchantMapping table expense.merchant with
      | some mapping => mapping.category
      | none => baseCategory
    else baseCategory
  let expenseWithMapping := { expense with category := finalCategory }
  let categoryId := resolveCategory finalCategory
  match transformAIInputToInsert expenseWithMapping statementId userId
      amountSgd lineHash categoryId with
  | .error e => .error e
  | .ok insertData => .ok { insertData with category_id := categoryId }

/-- Outcome of one insertExpenseRecord call: whether the row was created and
which warnings were logged (a uniqueness violation is absorbed silently, any
other create failure is absorbed with a console warning). -/
structure InsertAttemptResult where
  inserted : Bool
  warnings : List String
deriving DecidableEq, Repr

/-- insertExpenseRecord (server processing module): validate, then create
inside a catch-all; the catch maps every create failure to false, logging a
warning only when the message does not indicate a uniqueness violation. The
Except layer carries a thrown validation error. -/
def insertExpenseRecord (expenseRecord : ExpenseInsertData)
    (createOutcome : Except String Unit) : Except String InsertAttemptResult :=
  match validateExpenseInsert expenseRecord with
  | .error e => .error e
  | .ok _ =>
    match createOutcome with
    | .ok _ => .ok ⟨true, []⟩
    | .error msg =>
      if uniqueViolationMessage msg then .ok ⟨false, []⟩
      else .ok ⟨false, ["Failed to insert expense: " ++ msg]⟩

/-- External effects of one processPdfExpenses run: the category fetch, the
candidates yielded by the extraction stream, a transport error raised by the
stream after its yields, the per-candidate record conversion, and the
per-candidate database create outcome. -/
structure PipelineEnv where
  categoriesResult : Except String (List String)
  yields : List AIExpenseInput
  streamError : Option String
  convert : ℕ → Except String ExpenseInsertData
  createOutcome : ℕ → Except String Unit

/-- Observable outcome of the per-candidate loop. -/
structure LoopResult where
  count : ℕ
  attempts : List ℕ
  warnings : List String
  err : Option String
deriving DecidableEq, Repr

/-- The for-await loop body of processPdfExpenses: count the candidate,
convert it, insert it (ignoring the insert result); the first thrown error
aborts the loop. attempts records the indices at which insertExpenseRecord
was invoked. -/
def processCandidates (convert : ℕ → Except String ExpenseInsertData)
    (create : ℕ → Except String Unit) :
    ℕ → List AIExpenseInput → LoopResult
  | i, [] => ⟨i, [], [], none⟩
  | i, _ :: rest =>
    match convert i with
    | .error m => ⟨i + 1, [], [], some m⟩
    | .ok record =>
      match insertExpenseRecord record (create i) with
      | .error m => ⟨i + 1, [i], [], some m⟩
      | .ok r =>
        let tail := processCandidates convert create (i + 1) rest
        ⟨tail.count, i :: tail.attempts, r.warnings ++ tail.warnings, tail.err⟩

/-- Observable outcome of processPdfExpenses: the status written to the
statement, the error re-raised to the caller (none on success), the final
expense count, the insert attempts and the accumulated insert warnings. -/
structure PipelineRun where
  finalStatus : StatementStatus
  raised : Option String
  expenseCount : ℕ
  insertAttempts : List ℕ
  warnings : List String
deriving DecidableEq, Repr

/-- processPdfExpenses (server processing module): fetch categories, drive the
extraction stream, then fail the statement when zero candidates were yielded,
otherwise mark it completed; any error thrown on the way marks the statement
failed and is re-raised. -/
def processPdfExpenses (env : PipelineEnv) : PipelineRun :=
  match env.categoriesResult with
  | .error m => ⟨.failed, some m, 0, [], []⟩
  | .ok _ =>
    let loop := processCandidates env.convert env.createOutcome 0 env.yields
    match loop.err with
    | some m => ⟨.failed, some m, loop.count, loop.attempts, loop.warnings⟩
    | none =>
      match env.streamError with
      | some m => ⟨.failed, some m, loop.count, loop.attempts, loop.warnings⟩
      | none =>
        if loop.count = 0 then
          ⟨.failed, some "AI failed to extract any transactions.",
            loop.count, loop.attempts, loop.warnings⟩
        else
          ⟨.completed, none, loop.count, loop.attempts, loop.warnings⟩

/-! ## Category resolution (src/app/actions/categories.ts) -/

/-- MAX_CATEGORIES_PER_USER (src/lib/types/category.ts). -/
def MAX_CATEGORIES_PER_USER : ℕ := 20

/-- A stored category row restricted to the fields the resolution code reads. -/
structure CategoryRecord where
  id : String
  name : String
deriving DecidableEq, Repr

/-- getOrCreateCategoryByName (src/app/actions/categories.ts): fetch the
user categories, look for a case-insensitive name match, create the category
when absent. cats is the fetched list in storage order and freshId the id the
database assigns to a newly created row. Returns the resulting category list
and the resolved id. -/
def getOrCreateCategoryByName (cats : List CategoryRecord) (freshId : String)
    (categoryName : String) : List CategoryRecord × String :=
  match cats.find? (fun c => strLower c.name == strLower categoryName) with
  | some m => (cats, m.id)
  | none => (cats ++ [⟨freshId, categoryName⟩], freshId)

/-- createCategory (src/app/actions/categories.ts): validate the name, check
the per-user cap against the stored count, then create; a uniqueness violation
from the case-insensitive per-user name constraint is rethrown as a friendly
error. -/
def createCategory (cats : List CategoryRecord) (freshId : String)
    (name : String) : Except String (List CategoryRecord × String) :=
  if name.length < 1 ∨ 50 < name.length then
    .error "Invalid category name"
  else if MAX_CATEGORIES_PER_USER ≤ cats.length then
    .error ("Maximum " ++ toString MAX_CATEGORIES_PER_USER ++ " categories allowed")
  else if cats.any (fun c => strLower c.name == strLower name) then
    .error "Category with this name already exists"
  else
    .ok (cats ++ [⟨freshId, name⟩], freshId)

/-! ## Display transformers (client reconciliation helpers:
recalculateDuplicates, addExpenseToArray, updateExpenseInArray,
removeExpenseFromArray) -/

/-- DisplayExpense (src/lib/types/expense.ts). -/
structure DisplayExpense where
  id : String
  date : String
  description : String
  merchant : String
  category : String
  amount : ℚ
  originalAmount : ℚ
  originalCurrency : String
  currency : String
  createdAt : String
deriving DecidableEq, Repr

/-- DisplayExpenseWithDuplicate (src/lib/types/expense.ts). -/
structure DisplayExpenseWithDuplicate extends DisplayExpense where
  isDuplicate : Bool
deriving DecidableEq, Repr

/-- The combination key of recalculateDuplicates: the template literal
interpolating date, lowercased-trimmed merchant and amount with dash
separators. -/
def duplicateKey (expense : DisplayExpense) : String :=
  let normalizedMerchant := strTrim (strLower expense.merchant)
  expense.date ++ "-" ++ normalizedMerchant ++ "-" ++ jsNumToString expense.amount

/-- The map body of recalculateDuplicates with the running seen-set made
explicit. -/
def recalcAux (seen : List String) :
    List DisplayExpense → List DisplayExpenseWithDuplicate
  | [] => []
  | expense :: rest =>
    let combination := duplicateKey expense
    let isDup := seen.contains combination
    { toDisplayExpense := expense, isDuplicate := isDup } ::
      recalcAux (combination :: seen) rest

/-- recalculateDuplicates (display transformers): walk the list in display
order, flagging an element whose combination key was already seen. -/
def recalculateDuplicates (expenses : List DisplayExpense) :
    List DisplayExpenseWithDuplicate :=
  recalcAux [] expenses

/-- The partial update payload of updateExpenseInArray
(Partial of DisplayExpenseWithDuplicate together with a mandatory id). -/
structure ExpenseUpdate where
  id : String
  date : Option String
  description : Option String
  merchant : Option String
  category : Option String
  amount : Option ℚ
  originalAmount : Option ℚ
  originalCurrency : Option String
  currency : Option String
  createdAt : Option String
  isDuplicate : Option Bool
deriving DecidableEq, Repr

/-- The object-spread merge of an update payload over an expense row. -/
def mergeUpdate (e : DisplayExpenseWithDuplicate) (u : ExpenseUpdate) :
    DisplayExpenseWithDuplicate :=
  { id := u.id
    date := u.date.getD e.date
    description := u.description.getD e.description
    merchant := u.merchant.getD e.merchant
    category := u.category.getD e.category
    amount := u.amount.getD e.amount
    originalAmount := u.originalAmount.getD e.originalAmount
    originalCurrency := u.originalCurrency.getD e.originalCurrency
    currency := u.currency.getD e.currency
    createdAt := u.createdAt.getD e.createdAt
    isDuplicate := u.isDuplicate.getD e.isDuplicate }

/-- updateExpenseInArray (display transformers): merge the changed fields into
the matching record by id, then recompute duplicate flags. -/
def updateExpenseInArray (expenses : List DisplayExpenseWithDuplicate)
    (updatedExpense : ExpenseUpdate) : List DisplayExpenseWithDuplicate :=
  let updated := expenses.map (fun exp =>
    if exp.id = updatedExpense.id then mergeUpdate exp updatedExpense else exp)
  recalculateDuplicates (updated.map (·.toDisplayExpense))

/-- addExpenseToArray (display transformers): prepend the new record, then
recompute duplicate flags. -/
def addExpenseToArray (expenses : List DisplayExpenseWithDuplicate)
    (newExpense : DisplayExpense) : List DisplayExpenseWithDuplicate :=
  recalculateDuplicates (newExpense :: expenses.map (·.toDisplayExpense))

/-- removeExpenseFromArray (display transformers). -/
def removeExpenseFromArray (expenses : List DisplayExpenseWithDuplicate)
    (expenseId : String) : List DisplayExpenseWithDuplicate :=
  let filtered := expenses.filter (fun exp => exp.id ≠ expenseId)
  recalculateDuplicates (filtered.map (·.toDisplayExpense))

/-! ## Statement-status subscription handler
(src/hooks/use-statement-status.ts) -/

/-- StatementStatusData as held by useStatementStatus; updatedAt is the
record timestamp in epoch milliseconds, the value the sort comparator reads
through new Date(x).getTime(). -/
structure StatementStatusData where
  id : String
  fileName : String
  status : StatementStatus
  updatedAt : ℤ
deriving DecidableEq, Repr

/-- Stable insertion keeping newer timestamps first, modelling the stable
Array.prototype.sort with the descending updatedAt comparator. -/
def insertByUpdatedDesc (x : StatementStatusData) :
    List StatementStatusData → List StatementStatusData
  | [] => [x]
  | y :: t =>
    if y.updatedAt ≤ x.updatedAt then x :: y :: t
    else y :: insertByUpdatedDesc x t

/-- Stable sort by updatedAt descending. -/
def sortByUpdatedDesc : List StatementStatusData → List StatementStatusData
  | [] => []
  | x :: t => insertByUpdatedDesc x (sortByUpdatedDesc t)

/-- The non-delete branch of the useStatementStatus subscription callback:
drop every held record with the incoming id, prepend the incoming record, and
re-sort by updatedAt descending. -/
def applyStatusEvent (prev : List StatementStatusData)
    (next : StatementStatusData) : List StatementStatusData :=
  let updated := prev.filter (fun item => item.id ≠ next.id)
  let merged := next :: updated
  sortByUpdatedDesc merged

/-! ## Helper lemmas -/

lemma contains_eq_decide_mem (l : List String) (a : String) :
    l.contains a = decide (a ∈ l) := by
  induction l with
  | nil => simp
  | cons b t ih => simp [List.contains_cons] at *

lemma contains_congr_perm {l₁ l₂ : List String} (h : l₁.Perm l₂) (a : String) :
    l₁.contains a = l₂.contains a := by
  rw [contains_eq_decide_mem, contains_eq_decide_mem]
  exact decide_eq_decide.mpr h.mem_iff

lemma mem_insertByUpdatedDesc (x r : StatementStatusData)
    (l : List StatementStatusData) :
    r ∈ insertByUpdatedDesc x l ↔ r = x ∨ r ∈ l := by
  induction l with
  | nil => simp [insertByUpdatedDesc]
  | cons y t ih =>
    by_cases hy : y.updatedAt ≤ x.updatedAt
    · simp [insertByUpdatedDesc, hy]
    · simp [insertByUpdatedDesc, hy, ih]
      tauto

lemma mem_sortByUpdatedDesc (r : StatementStatusData)
    (l : List StatementStatusData) :
    r ∈ sortByUpdatedDesc l ↔ r ∈ l := by
  induction l with
  | nil => simp [sortByUpdatedDesc]
  | cons y t ih => simp [sortByUpdatedDesc, mem_insertByUpdatedDesc, ih]

/-! ## C7 -/

/-- C7: category resolution is case-insensitive and idempotent — resolving a
name and then any case-variant of the same name returns the same category id
both times, and the second resolution leaves the category list unchanged. -/
theorem c7_resolution_case_insensitive_idempotent
    (cats : List CategoryRecord) (name1 name2 fresh1 fresh2 : String)
    (h : strLower name1 = strLower name2) :
    (getOrCreateCategoryByName
        (getOrCreateCategoryByName cats fresh1 name1).1 fresh2 name2).2 =
      (getOrCreateCategoryByName cats fresh1 name1).2 ∧
    (getOrCreateCategoryByName
        (getOrCreateCategoryByName cats fresh1 name1).1 fresh2 name2).1 =
      (getOrCreateCategoryByName cats fresh1 name1).1 := by
  simp only [getOrCreateCategoryByName, ← h]
  cases hf : cats.find? (fun c => strLower c.name == strLower name1) with
  | some m => simp [hf]
  | none =>
    simp only [hf, List.find?_append]
    have hone : List.find? (fun c => strLower c.name == strLower name1)
        ([⟨fresh1, name1⟩] : List CategoryRecord) =
        some (⟨fresh1, name1⟩ : CategoryRecord) := by
      simp [List.find?]
    simp [hf, hone]

/-- C7 witness: resolving dining and then Dining on a concrete store returns
the same id twice and creates nothing the second time. -/
theorem c7_witness :
    strLower "dining" = strLower "Dining" ∧
    (getOrCreateCategoryByName
        (getOrCreateCategoryByName [⟨"i1", "Groceries"⟩] "i2" "dining").1
        "i3" "Dining").2 =
      (getOrCreateCategoryByName [⟨"i1", "Groceries"⟩] "i2" "dining").2 ∧
    (getOrCreateCategoryByName
        (getOrCreateCategoryByName [⟨"i1", "Groceries"⟩] "i2" "dining").1
        "i3" "Dining").1 =
      (getOrCreateCategoryByName [⟨"i1", "Groceries"⟩] "i2" "dining").1 := by
  refine ⟨by decide, ?_⟩
  exact c7_resolution_case_insensitive_idempotent
    [⟨"i1", "Groceries"⟩] "dining" "Dining" "i2" "i3" (by decide)

/-! ## C8 -/

/-- C8 counterexample: a user holding the maximum number of categories, a
fresh name — getOrCreateCategoryByName creates the category anyway, leaving
the user with MAX_CATEGORIES_PER_USER + 1 categories, so resolution does not
enforce the cap as the claim states. -/
theorem c8_counterexample :
    ((List.range MAX_CATEGORIES_PER_USER).map
        (fun i => (⟨"id" ++ toString i, "cat" ++ toString i⟩ : CategoryRecord))).length =
      MAX_CATEGORIES_PER_USER ∧
    (getOrCreateCategoryByName
        ((List.range MAX_CATEGORIES_PER_USER).map
          (fun i => (⟨"id" ++ toString i, "cat" ++ toString i⟩ : CategoryRecord)))
        "idNew" "Dining").2 = "idNew" ∧
    (getOrCreateCategoryByName
        ((List.range MAX_CATEGORIES_PER_USER).map
          (fun i => (⟨"id" ++ toString i, "cat" ++ toString i⟩ : CategoryRecord)))
        "idNew" "Dining").1.length = MAX_CATEGORIES_PER_USER + 1 := by
  decide

/-- C8 amended: only the explicit createCategory action enforces the per-user
category cap — at or above the cap it fails for every input without creating;
get-or-create resolution performs no cap check and creates a missing name
even at the cap, growing the list beyond the maximum. -/
theorem c8_cap_enforced_only_by_explicit_create
    (cats : List CategoryRecord) (freshId name : String)
    (hcap : MAX_CATEGORIES_PER_USER ≤ cats.length) :
    (∃ e, createCategory cats freshId name = .error e) ∧
    (cats.find? (fun c => strLower c.name == strLower name) = none →
      getOrCreateCategoryByName cats freshId name =
        (cats ++ [⟨freshId, name⟩], freshId)) := by
  constructor
  · unfold createCategory
    by_cases hv : name.length < 1 ∨ 50 < name.length
    · rw [if_pos hv]
      exact ⟨_, rfl⟩
    · rw [if_neg hv, if_pos hcap]
      exact ⟨_, rfl⟩
  · intro hnone
    unfold getOrCreateCategoryByName
    simp [hnone]

/-- C8 amended witness at a concrete 20-category store. -/
theorem c8_amended_witness :
    (∃ e, createCategory
        ((List.range MAX_CATEGORIES_PER_USER).map
          (fun i => (⟨"id" ++ toString i, "cat" ++ toString i⟩ : CategoryRecord)))
        "idNew" "Dining" = .error e) ∧
    (((List.range MAX_CATEGORIES_PER_USER).map
        (fun i => (⟨"id" ++ toString i, "cat" ++ toString i⟩ : CategoryRecord))).find?
          (fun c => strLower c.name == strLower "Dining") = none →
      getOrCreateCategoryByName
          ((List.range MAX_CATEGORIES_PER_USER).map
            (fun i => (⟨"id" ++ toString i, "cat" ++ toString i⟩ : CategoryRecord)))
          "idNew" "Dining" =
        (((List.range MAX_CATEGORIES_PER_USER).map
            (fun i => (⟨"id" ++ toString i, "cat" ++ toString i⟩ : CategoryRecord))) ++
          [⟨"idNew", "Dining"⟩], "idNew")) :=
  c8_cap_enforced_only_by_explicit_create _ "idNew" "Dining" (by decide)

/-! ## C9 -/

/-- C9 counterexample: the subscription handler holds a completed record with
timestamp 10; an event for the same statement carrying the older timestamp 5
replaces it anyway, so retention is not last-write-wins by the event
timestamp. -/
theorem c9_counterexample :
    applyStatusEvent [⟨"s1", "f.pdf", .completed, 10⟩]
        ⟨"s1", "f.pdf", .processing, 5⟩ =
      [⟨"s1", "f.pdf", .processing, 5⟩] ∧
    (⟨"s1", "f.pdf", .processing, 5⟩ : StatementStatusData).updatedAt <
      (⟨"s1", "f.pdf", .completed, 10⟩ : StatementStatusData).updatedAt := by
  decide

/-- C9 amended: the handler is last-arrival-wins — for every held list and
every incoming event, the resulting list holds exactly the incoming record
for that statement id (regardless of how its timestamp compares to the
previously held record) together with the records of all other ids; the
timestamp field only orders the displayed list, descending. -/
theorem c9_last_arrival_wins (prev : List StatementStatusData)
    (next : StatementStatusData) (r : StatementStatusData) :
    r ∈ applyStatusEvent prev next ↔ r = next ∨ (r ∈ prev ∧ r.id ≠ next.id) := by
  unfold applyStatusEvent
  rw [mem_sortByUpdatedDesc]
  simp [List.mem_filter]

/-! ## C6 -/

/-- The merge of an update payload restricted to the display fields (the
object spread acts fieldwise, so the display part of the merge depends only
on the display part of the target row). -/
def mergeUpdateDisplay (d : DisplayExpense) (u : ExpenseUpdate) : DisplayExpense :=
  { id := u.id
    date := u.date.getD d.date
    description := u.description.getD d.description
    merchant := u.merchant.getD d.merchant
    category := u.category.getD d.category
    amount := u.amount.getD d.amount
    originalAmount := u.originalAmount.getD d.originalAmount
    originalCurrency := u.originalCurrency.getD d.originalCurrency
    currency := u.currency.getD d.currency
    createdAt := u.createdAt.getD d.createdAt }

/-- The display-level effect of one updateExpenseInArray map step. -/
def applyUpdateDisplay (u : ExpenseUpdate) (d : DisplayExpense) : DisplayExpense :=
  if d.id = u.id then mergeUpdateDisplay d u else d

lemma toDisplay_mergeUpdate (e : DisplayExpenseWithDuplicate) (u : ExpenseUpdate) :
    (mergeUpdate e u).toDisplayExpense = mergeUpdateDisplay e.toDisplayExpense u := rfl

lemma optGetD_idem {α : Type} (o : Option α) (x : α) :
    o.getD (o.getD x) = o.getD x := by cases o <;> rfl

lemma mergeUpdateDisplay_idem (d : DisplayExpense) (u : ExpenseUpdate) :
    mergeUpdateDisplay (mergeUpdateDisplay d u) u = mergeUpdateDisplay d u := by
  simp [mergeUpdateDisplay, optGetD_idem]

lemma applyUpdateDisplay_idem (u : ExpenseUpdate) (d : DisplayExpense) :
    applyUpdateDisplay u (applyUpdateDisplay u d) = applyUpdateDisplay u d := by
  unfold applyUpdateDisplay
  by_cases h : d.id = u.id
  · simp [h, mergeUpdateDisplay, optGetD_idem]
  · simp [h]

lemma recalcAux_map_toDisplay (seen : List String) (L : List DisplayExpense) :
    (recalcAux seen L).map (·.toDisplayExpense) = L := by
  induction L generalizing seen with
  | nil => rfl
  | cons e rest ih => simp [recalcAux, ih]

lemma recalculateDuplicates_map_toDisplay (L : List DisplayExpense) :
    (recalculateDuplicates L).map (·.toDisplayExpense) = L :=
  recalcAux_map_toDisplay [] L

lemma toDisplay_update_step (u : ExpenseUpdate) (x : DisplayExpenseWithDuplicate) :
    (if x.id = u.id then mergeUpdate x u else x).toDisplayExpense =
      applyUpdateDisplay u x.toDisplayExpense := by
  unfold applyUpdateDisplay
  by_cases h : x.id = u.id
  · simp [h, toDisplay_mergeUpdate]
  · simp [h]

lemma updateExpenseInArray_eq_display (l : List DisplayExpenseWithDuplicate)
    (u : ExpenseUpdate) :
    updateExpenseInArray l u =
      recalculateDuplicates
        ((l.map (·.toDisplayExpense)).map (applyUpdateDisplay u)) := by
  unfold updateExpenseInArray
  refine congrArg recalculateDuplicates ?_
  simp only [List.map_map, Function.comp_def]
  exact List.map_congr_left (fun x _ => toDisplay_update_step u x)

lemma recalcAux_length (seen : List String) (L : List DisplayExpense) :
    (recalcAux seen L).length = L.length := by
  induction L generalizing seen with
  | nil => rfl
  | cons e rest ih => simp [recalcAux, ih]

/-- C6 counterexample: replaying the same insert event is not idempotent — an
insert of a record already present prepends a second copy instead of merging
by id, so applying the insert twice yields a two-element list. -/
theorem c6_counterexample :
    addExpenseToArray
        (addExpenseToArray []
          ⟨"e1", "2024-01-01", "Coffee", "Starbucks", "Dining", 5, 5, "SGD", "SGD", "t1"⟩)
        ⟨"e1", "2024-01-01", "Coffee", "Starbucks", "Dining", 5, 5, "SGD", "SGD", "t1"⟩ ≠
      addExpenseToArray []
        ⟨"e1", "2024-01-01", "Coffee", "Starbucks", "Dining", 5, 5, "SGD", "SGD", "t1"⟩ := by
  decide

/-- C6 amended: update application is idempotent under replay — applying the
same update event twice yields the same list as applying it once — but insert
application is not: addExpenseToArray performs no merge by id and always
prepends, growing the list by one element on every application, so replaying
an insert of a record already present adds a second entry. -/
theorem c6_update_replay_idempotent (l : List DisplayExpenseWithDuplicate)
    (u : ExpenseUpdate) (e : DisplayExpense) :
    updateExpenseInArray (updateExpenseInArray l u) u = updateExpenseInArray l u ∧
    (addExpenseToArray l e).length = l.length + 1 := by
  constructor
  · rw [updateExpenseInArray_eq_display, updateExpenseInArray_eq_display,
      recalculateDuplicates_map_toDisplay, List.map_map]
    refine congrArg recalculateDuplicates ?_
    simp only [Function.comp_def]
    exact List.map_congr_left (fun x _ => applyUpdateDisplay_idem u x)
  · unfold addExpenseToArray recalculateDuplicates
    rw [recalcAux_length]
    simp

/-! ## C5 -/

lemma recalcAux_append (seen : List String) (pre L : List DisplayExpense) :
    recalcAux seen (pre ++ L) =
      recalcAux seen pre ++
        recalcAux ((pre.map duplicateKey).reverse ++ seen) L := by
  induction pre generalizing seen with
  | nil => simp [recalcAux]
  | cons e rest ih =>
    simp only [List.cons_append, recalcAux, List.append_eq]
    rw [ih]
    simp [List.append_assoc]

/-- C5 counterexample: the flag is keyed on the concatenated string
date-merchant-amount, which is not injective on (date, merchant, amount)
triples — here the second row is the first occurrence of its own triple
(different merchant, different amount) yet is flagged duplicate, because its
key string collides with the first row's. -/
theorem c5_counterexample :
    (recalculateDuplicates
        [⟨"a1", "2024-01-01", "Taxi", "x-", "Transportation", 5, 5, "SGD", "SGD", "t1"⟩,
         ⟨"b2", "2024-01-01", "Refund", "x", "Transportation", -5, -5, "SGD", "SGD", "t2"⟩]).map
        (·.isDuplicate) = [false, true] ∧
    ¬(("2024-01-01" : String) = "2024-01-01" ∧
        strTrim (strLower "x-") = strTrim (strLower "x") ∧ (5 : ℚ) = -5) := by
  decide

/-- C5 amended: duplicate recomputation processes the list in display order
keeping a set of seen concatenated date-merchant-amount key strings (not
triples): an element is flagged exactly when its key string already occurred
earlier, so the first occurrence of a key is unflagged and later occurrences
are flagged; distinct triples may share a key. In particular, on the
spec example two rows equal up to merchant case with differing descriptions
give flags false then true, and a third row changing only the amount to 5.01
is not flagged. -/
theorem c5_flags_keyed_by_concatenated_string (pre : List DisplayExpense)
    (e : DisplayExpense) (post : List DisplayExpense) :
    (∃ tail, recalculateDuplicates (pre ++ e :: post) =
      recalculateDuplicates pre ++
        ({ toDisplayExpense := e,
           isDuplicate := (pre.map duplicateKey).contains (duplicateKey e) } :: tail)) ∧
    (recalculateDuplicates
        [⟨"a1", "2024-01-01", "Coffee", "Starbucks", "Dining", 5, 5, "SGD", "SGD", "t1"⟩,
         ⟨"b2", "2024-01-01", "Latte", "STARBUCKS", "Dining", 5, 5, "SGD", "SGD", "t2"⟩,
         ⟨"c3", "2024-01-01", "Latte", "STARBUCKS", "Dining",
           Rat.mk' 501 100 (by decide) (by decide),
           Rat.mk' 501 100 (by decide) (by decide), "SGD", "SGD", "t3"⟩]).map
        (·.isDuplicate) = [false, true, false] := by
  constructor
  · refine ⟨recalcAux (duplicateKey e :: (pre.map duplicateKey).reverse) post, ?_⟩
    unfold recalculateDuplicates
    rw [recalcAux_append, List.append_nil]
    have hc : ((pre.map duplicateKey).reverse).contains (duplicateKey e) =
        (pre.map duplicateKey).contains (duplicateKey e) :=
      contains_congr_perm (List.reverse_perm _) _
    simp [recalcAux, hc]
  · decide

/-! ## C3 -/

lemma contains_or_other (cats : List String) (c : String) :
    (if cats.contains c then c else "Other") ∈ cats ∨
      (if cats.contains c then c else "Other") = "Other" := by
  by_cases h : cats.contains c = true
  · rw [if_pos h]
    left
    rw [contains_eq_decide_mem] at h
    exact of_decide_eq_true h
  · rw [if_neg h]
    right
    rfl

lemma originalSchemaParse_category (cats : List String) (v : JSValue)
    (r : AIExpenseInput) (h : originalSchemaParse cats v = some r) :
    r.category ∈ cats ∨ r.category = "Other" := by
  unfold originalSchemaParse at h
  split at h
  · split at h
    · injection h with h'
      subst h'
      exact contains_or_other cats _
    · cases h
  · cases h

lemma coerceObjectFields_category (cats : List String) (v : JSValue) :
    (coerceObjectFields cats v).category ∈ cats ∨
      (coerceObjectFields cats v).category = "Other" := by
  simp only [coerceObjectFields]
  exact contains_or_other cats _

/-- C3: the per-item coercion ladder is a total function — it yields a
well-typed candidate tuple for every model-produced item, with the category
forced into the caller-supplied list or Other on every path; a null item
degrades to the unknown-type placeholder, an unparsable string to the
invalid-JSON placeholder, and missing object fields degrade to empty string,
zero amount and the SGD currency default. -/
theorem c3_coercion_total_category_constrained
    (jsonParse : String → Option JSValue) (cats : List String) (item : JSValue) :
    ((coerceExpenseItem jsonParse cats item).category ∈ cats ∨
      (coerceExpenseItem jsonParse cats item).category = "Other") ∧
    coerceExpenseItem jsonParse cats .null = unknownTypePlaceholder ∧
    (∀ s, jsonParse s = none →
      coerceExpenseItem jsonParse cats (.str s) = invalidJsonPlaceholder) ∧
    (coerceExpenseItem jsonParse cats (.obj [])).date = "" ∧
    (coerceExpenseItem jsonParse cats (.obj [])).merchant = "" ∧
    (coerceExpenseItem jsonParse cats (.obj [])).original_amount = 0 ∧
    (coerceExpenseItem jsonParse cats (.obj [])).original_currency = "SGD" := by
  refine ⟨?_, rfl, ?_, ?_, ?_, ?_, ?_⟩
  · unfold coerceExpenseItem
    cases h1 : originalSchemaParse cats item with
    | some r => exact originalSchemaParse_category cats item r h1
    | none =>
      cases item with
      | str s =>
        cases h2 : jsonParse s with
        | none =>
          simp only [h2]
          exact Or.inr rfl
        | some parsed =>
          cases parsed with
          | null =>
            simp only [h2]
            exact Or.inr rfl
          | str s2 =>
            simp only [h2]
            cases h3 : originalSchemaParse cats (.str s2) with
            | some r =>
              simp only [h3]
              exact originalSchemaParse_category cats _ r h3
            | none =>
              simp only [h3]
              exact coerceObjectFields_category cats _
          | num q =>
            simp only [h2]
            cases h3 : originalSchemaParse cats (.num q) with
            | some r =>
              simp only [h3]
              exact originalSchemaParse_category cats _ r h3
            | none =>
              simp only [h3]
              exact coerceObjectFields_category cats _
          | bool b =>
            simp only [h2]
            cases h3 : originalSchemaParse cats (.bool b) with
            | some r =>
              simp only [h3]
              exact originalSchemaParse_category cats _ r h3
            | none =>
              simp only [h3]
              exact coerceObjectFields_category cats _
          | obj fields =>
            simp only [h2]
            cases h3 : originalSchemaParse cats (.obj fields) with
            | some r =>
              simp only [h3]
              exact originalSchemaParse_category cats _ r h3
            | none =>
              simp only [h3]
              exact coerceObjectFields_category cats _
          | arr elems =>
            simp only [h2]
            cases h3 : originalSchemaParse cats (.arr elems) with
            | some r =>
              simp only [h3]
              exact originalSchemaParse_category cats _ r h3
            | none =>
              simp only [h3]
              exact coerceObjectFields_category cats _
      | num q => exact Or.inr rfl
      | bool b => exact Or.inr rfl
      | null => exact Or.inr rfl
      | obj fields => exact coerceObjectFields_category cats _
      | arr elems => exact coerceObjectFields_category cats _
  · intro s hs
    unfold coerceExpenseItem
    simp only [hs]
    rfl
  · rfl
  · rfl
  · rfl
  · rfl

/-- C3 witness at a string item the JSON parser rejects. -/
theorem c3_witness :
    ((coerceExpenseItem (fun _ => none) ["Dining"] (.str "oops")).category ∈
        ["Dining"] ∨
      (coerceExpenseItem (fun _ => none) ["Dining"] (.str "oops")).category =
        "Other") ∧
    coerceExpenseItem (fun _ => none) ["Dining"] (.str "oops") =
      invalidJsonPlaceholder := by
  have h := c3_coercion_total_category_constrained (fun _ => none) ["Dining"]
    (.str "oops")
  exact ⟨h.1, h.2.2.1 "oops" rfl⟩

/-! ## C4 -/

lemma transformAIInputToInsert_ok (a : AIExpenseInput) (sid uid : String)
    (amt : ℚ) (lh cid : String) (d : ExpenseInsertData)
    (h : transformAIInputToInsert a sid uid amt lh cid = .ok d) :
    d.category = a.category := by
  simp only [transformAIInputToInsert] at h
  split at h
  · injection h with h'
    subst h'
    rfl
  · cases h

/-- C4: the final category of a pipeline-produced record is Travel for a
foreign (non-SGD) original currency and the extracted category otherwise,
except that an existing merchant mapping for the candidate merchant name —
looked up through uppercase normalisation, hence case-insensitively —
unconditionally overrides that result, foreign currency included. -/
theorem c4_final_category_rules (convertedAmount : ℚ)
    (table : String → Option MerchantMapping) (resolveCategory : String → String)
    (hashOf : String → String → ℚ → String) (e : AIExpenseInput)
    (sid uid : String) (r : ExpenseInsertData)
    (h : convertExpenseToRecord convertedAmount table resolveCategory hashOf
        e sid uid = .ok r) :
    (∀ mm, e.merchant ≠ "" → table (strUpper e.merchant) = some mm →
      r.category = mm.category) ∧
    ((e.merchant = "" ∨ table (strUpper e.merchant) = none) →
      r.category = if e.original_currency ≠ "SGD" then "Travel" else e.category) ∧
    (∀ m2, strUpper e.merchant = strUpper m2 →
      getMerchantMapping table e.merchant = getMerchantMapping table m2) := by
  simp only [convertExpenseToRecord, getMerchantMapping] at h
  split at h
  · cases h
  · rename_i d heq
    injection h with h'
    have hcat := transformAIInputToInsert_ok _ _ _ _ _ _ _ heq
    subst h'
    refine ⟨?_, ?_, ?_⟩
    · intro mm hm hmm
      refine Eq.trans hcat ?_
      simp [hm, hmm]
    · rintro (hm | hnone)
      · refine Eq.trans hcat ?_
        simp [hm]
      · refine Eq.trans hcat ?_
        by_cases hm : e.merchant = ""
        · simp [hm]
        · simp [hm, hnone]
    · intro m2 h2
      unfold getMerchantMapping
      rw [h2]

/-- C4 witness: a foreign-currency candidate whose merchant has a (uppercase
stored) mapping resolves to the mapping category; the same candidate without
a mapping resolves to Travel. -/
theorem c4_witness :
    ((⟨"s1", "u1", "2024-01-01", "Ride", "Grab", 7, 5, "USD", "USD",
        "Transportation", "cid", "hash"⟩ : ExpenseInsertData).category =
      "Transportation") ∧
    ((⟨"s1", "u1", "2024-01-01", "Ride", "Grab", 7, 5, "USD", "USD",
        "Travel", "cid", "hash"⟩ : ExpenseInsertData).category =
      if ("USD" : String) ≠ "SGD" then "Travel" else "Dining") := by
  constructor
  · exact (c4_final_category_rules 7
      (fun n => if n = "GRAB" then some ⟨"m1", "u1", "GRAB", "Transportation"⟩ else none)
      (fun _ => "cid") (fun _ _ _ => "hash")
      ⟨"2024-01-01", "Ride", "Grab", "Dining", 5, "USD"⟩ "s1" "u1"
      ⟨"s1", "u1", "2024-01-01", "Ride", "Grab", 7, 5, "USD", "USD",
        "Transportation", "cid", "hash"⟩ rfl).1
      ⟨"m1", "u1", "GRAB", "Transportation"⟩ (by decide) rfl
  · exact (c4_final_category_rules 7 (fun _ => none)
      (fun _ => "cid") (fun _ _ _ => "hash")
      ⟨"2024-01-01", "Ride", "Grab", "Dining", 5, "USD"⟩ "s1" "u1"
      ⟨"s1", "u1", "2024-01-01", "Ride", "Grab", 7, 5, "USD", "USD",
        "Travel", "cid", "hash"⟩ rfl).2.1 (Or.inr rfl)

/-! ## C1, C2, C10: the pipeline loop -/

lemma processCandidates_ok (convert : ℕ → Except String ExpenseInsertData)
    (create : ℕ → Except String Unit)
    (hconv : ∀ j, ∃ r, convert j = .ok r ∧ validateExpenseInsert r = .ok r)
    (L : List AIExpenseInput) :
    ∀ i, ∃ w, processCandidates convert create i L =
      ⟨i + L.length, List.range' i L.length, w, none⟩ := by
  induction L with
  | nil =>
    intro i
    exact ⟨[], by simp [processCandidates]⟩
  | cons a rest ih =>
    intro i
    obtain ⟨r, hc, hv⟩ := hconv i
    obtain ⟨w, hw⟩ := ih (i + 1)
    have hins : ∃ res : InsertAttemptResult,
        insertExpenseRecord r (create i) = .ok res := by
      unfold insertExpenseRecord
      rw [hv]
      cases create i with
      | ok _ => exact ⟨_, rfl⟩
      | error msg =>
        by_cases hu : uniqueViolationMessage msg = true
        · exact ⟨⟨false, []⟩, by simp [hu]⟩
        · exact ⟨⟨false, ["Failed to insert expense: " ++ msg]⟩, by simp [hu]⟩
    obtain ⟨res, hres⟩ := hins
    refine ⟨res.warnings ++ w, ?_⟩
    have h1 : i + 1 + rest.length = i + (rest.length + 1) := by omega
    simp [processCandidates, hc, hres, hw, List.range'_succ, h1]

lemma processCandidates_silent (convert : ℕ → Except String ExpenseInsertData)
    (create : ℕ → Except String Unit)
    (hconv : ∀ j, ∃ r, convert j = .ok r ∧ validateExpenseInsert r = .ok r)
    (hins : ∀ j, create j = .ok () ∨
      ∃ m, create j = .error m ∧ uniqueViolationMessage m = true)
    (L : List AIExpenseInput) :
    ∀ i, processCandidates convert create i L =
      ⟨i + L.length, List.range' i L.length, [], none⟩ := by
  induction L with
  | nil =>
    intro i
    simp [processCandidates]
  | cons a rest ih =>
    intro i
    obtain ⟨r, hc, hv⟩ := hconv i
    have hres : ∃ b, insertExpenseRecord r (create i) = .ok ⟨b, []⟩ := by
      unfold insertExpenseRecord
      rw [hv]
      rcases hins i with hok | ⟨m, hm, hu⟩
      · exact ⟨true, by rw [hok]⟩
      · exact ⟨false, by rw [hm]; simp [hu]⟩
    obtain ⟨b, hres⟩ := hres
    have h1 : i + 1 + rest.length = i + (rest.length + 1) := by omega
    simp [processCandidates, hc, hres, ih (i + 1), List.range'_succ, h1]

/-- C1: a uniqueness violation on the expense insert is a silent successful
no-op — insertExpenseRecord returns false without raising and logs nothing —
and a run whose inserts all either succeed or fail with uniqueness violations
still attempts every candidate exactly once (no retries), finishes with the
statement completed, re-raises nothing, and logs no insert warnings. -/
theorem c1_unique_violation_silent_noop (env : PipelineEnv) (cats : List String)
    (hcats : env.categoriesResult = .ok cats)
    (hconv : ∀ j, ∃ r, env.convert j = .ok r ∧ validateExpenseInsert r = .ok r)
    (hstream : env.streamError = none) (hne : env.yields ≠ [])
    (hins : ∀ j, env.createOutcome j = .ok () ∨
      ∃ m, env.createOutcome j = .error m ∧ uniqueViolationMessage m = true) :
    (∀ d m, validateExpenseInsert d = .ok d → uniqueViolationMessage m = true →
      insertExpenseRecord d (.error m) = .ok ⟨false, []⟩) ∧
    processPdfExpenses env =
      ⟨.completed, none, env.yields.length, List.range env.yields.length, []⟩ := by
  constructor
  · intro d m hv hu
    simp [insertExpenseRecord, hv, hu]
  · have hloop := processCandidates_silent env.convert env.createOutcome hconv
      hins env.yields 0
    have hlen : env.yields.length ≠ 0 := fun hl => hne (List.length_eq_zero.mp hl)
    simp [processPdfExpenses, hcats, hloop, hstream, hlen, List.range_eq_range']

def c1Record : ExpenseInsertData :=
  ⟨"s1", "u1", "2024-01-01", "Coffee", "Starbucks", 5, 5, "SGD", "SGD",
    "Dining", "cid", "h1"⟩

def c1Env : PipelineEnv :=
  { categoriesResult := .ok ["Dining"]
    yields := [⟨"2024-01-01", "Coffee", "Starbucks", "Dining", 5, "SGD"⟩]
    streamError := none
    convert := fun _ => .ok c1Record
    createOutcome := fun _ =>
      .error "violates unique constraint expenses_user_id_line_hash" }

/-- C1 witness: one candidate whose insert hits the uniqueness constraint —
the statement still completes with no error and one silent attempt. -/
theorem c1_witness :
    insertExpenseRecord c1Record
        (.error "violates unique constraint expenses_user_id_line_hash") =
      .ok ⟨false, []⟩ ∧
    processPdfExpenses c1Env = ⟨.completed, none, 1, [0], []⟩ := by
  have h := c1_unique_violation_silent_noop c1Env ["Dining"] rfl
    (fun _ => ⟨c1Record, rfl, rfl⟩) rfl (by decide)
    (fun _ => Or.inr ⟨_, rfl, by decide⟩)
  exact ⟨h.1 c1Record _ rfl (by decide), h.2⟩

/-- C2: with the category fetch succeeding, a run over zero candidates fails
the statement with the descriptive zero-extraction error; a run over at least
one candidate with no thrown error completes; an error thrown inside the loop
fails the statement and re-raises; and a stream transport error after the
yields fails the statement and re-raises. -/
theorem c2_status_transitions (env : PipelineEnv) (cats : List String)
    (hcats : env.categoriesResult = .ok cats) :
    ((env.yields = [] ∧ env.streamError = none) →
      processPdfExpenses env =
        ⟨.failed, some "AI failed to extract any transactions.", 0, [], []⟩) ∧
    ((env.yields ≠ [] ∧ env.streamError = none ∧
        (∀ j, ∃ r, env.convert j = .ok r ∧ validateExpenseInsert r = .ok r)) →
      (processPdfExpenses env).finalStatus = .completed ∧
      (processPdfExpenses env).raised = none) ∧
    (∀ m, (processCandidates env.convert env.createOutcome 0 env.yields).err =
        some m →
      (processPdfExpenses env).finalStatus = .failed ∧
      (processPdfExpenses env).raised = some m) ∧
    (∀ m, (processCandidates env.convert env.createOutcome 0 env.yields).err =
        none →
      env.streamError = some m →
      (processPdfExpenses env).finalStatus = .failed ∧
      (processPdfExpenses env).raised = some m) := by
  refine ⟨?_, ?_, ?_, ?_⟩
  · rintro ⟨hy, hs⟩
    simp [processPdfExpenses, hcats, hy, hs, processCandidates]
  · rintro ⟨hne, hs, hconv⟩
    obtain ⟨w, hw⟩ := processCandidates_ok env.convert env.createOutcome hconv
      env.yields 0
    have hlen : env.yields.length ≠ 0 := fun hl => hne (List.length_eq_zero.mp hl)
    simp [processPdfExpenses, hcats, hw, hs, hlen]
  · intro m hm
    simp [processPdfExpenses, hcats, hm]
  · intro m hloop hs
    simp [processPdfExpenses, hcats, hloop, hs]

def c2Env : PipelineEnv :=
  { categoriesResult := .ok []
    yields := []
    streamError := none
    convert := fun _ => .error "unused"
    createOutcome := fun _ => .ok () }

/-- C2 witness: a zero-candidate run fails with the descriptive error. -/
theorem c2_witness :
    processPdfExpenses c2Env =
      ⟨.failed, some "AI failed to extract any transactions.", 0, [], []⟩ :=
  (c2_status_transitions c2Env [] rfl).1 ⟨rfl, rfl⟩

/-- C10: insertExpenseRecord absorbs every create failure — it returns false
without raising, logging a warning only for non-uniqueness failures — so,
with conversions succeeding, the run outcome (status, re-raised error, count,
insert attempts) is the same for every per-candidate create behaviour, and a
run over at least one candidate completes even if all inserts fail. -/
theorem c10_all_insert_failures_absorbed (env : PipelineEnv)
    (cats : List String) (hcats : env.categoriesResult = .ok cats)
    (hconv : ∀ j, ∃ r, env.convert j = .ok r ∧ validateExpenseInsert r = .ok r) :
    (∀ d msg, validateExpenseInsert d = .ok d →
      insertExpenseRecord d (.error msg) =
        .ok ⟨false, if uniqueViolationMessage msg then []
          else ["Failed to insert expense: " ++ msg]⟩) ∧
    (∀ create2,
      (processPdfExpenses { env with createOutcome := create2 }).finalStatus =
        (processPdfExpenses env).finalStatus ∧
      (processPdfExpenses { env with createOutcome := create2 }).raised =
        (processPdfExpenses env).raised ∧
      (processPdfExpenses { env with createOutcome := create2 }).expenseCount =
        (processPdfExpenses env).expenseCount ∧
      (processPdfExpenses { env with createOutcome := create2 }).insertAttempts =
        (processPdfExpenses env).insertAttempts) ∧
    (env.streamError = none → env.yields ≠ [] →
      (processPdfExpenses env).finalStatus = .completed) := by
  refine ⟨?_, ?_, ?_⟩
  · intro d msg hv
    by_cases hu : uniqueViolationMessage msg = true
    · simp [insertExpenseRecord, hv, hu]
    · simp [insertExpenseRecord, hv, hu]
  · intro create2
    obtain ⟨w1, hw1⟩ := processCandidates_ok env.convert env.createOutcome hconv
      env.yields 0
    obtain ⟨w2, hw2⟩ := processCandidates_ok env.convert create2 hconv
      env.yields 0
    cases hse : env.streamError with
    | some m => simp [processPdfExpenses, hcats, hw1, hw2, hse]
    | none =>
      by_cases hl : env.yields.length = 0
      · simp [processPdfExpenses, hcats, hw1, hw2, hse, hl]
      · simp [processPdfExpenses, hcats, hw1, hw2, hse, hl]
  · intro hs hne
    obtain ⟨w1, hw1⟩ := processCandidates_ok env.convert env.createOutcome hconv
      env.yields 0
    have hlen : env.yields.length ≠ 0 := fun hl => hne (List.length_eq_zero.mp hl)
    simp [processPdfExpenses, hcats, hw1, hs, hlen]

def c10Record : ExpenseInsertData :=
  ⟨"s2", "u2", "2024-02-02", "Taxi", "Grab", 9, 9, "SGD", "SGD",
    "Transportation", "cid2", "h2"⟩

def c10Env : PipelineEnv :=
  { categoriesResult := .ok ["Transportation"]
    yields := [⟨"2024-02-02", "Taxi", "Grab", "Transportation", 9, "SGD"⟩]
    streamError := none
    convert := fun _ => .ok c10Record
    createOutcome := fun _ => .error "database timeout" }

/-- C10 witness: a non-uniqueness insert failure is absorbed with a warning
and the one-candidate run still completes. -/
theorem c10_witness :
    insertExpenseRecord c10Record (.error "database timeout") =
      .ok ⟨false, ["Failed to insert expense: database timeout"]⟩ ∧
    (processPdfExpenses c10Env).finalStatus = .completed := by
  have h := c10_all_insert_failures_absorbed c10Env ["Transportation"] rfl
    (fun _ => ⟨c10Record, rfl, rfl⟩)
  refine ⟨?_, h.2.2 rfl (by decide)⟩
  have h1 := h.1 c10Record "database timeout" rfl
  simpa using h1

end Spendro
